import Mathlib

/-!
Shallow embedding of the `AccountStateStore` in-memory account-state cache
(TypeScript) and its math utilities, for checking the natural-language
specification against the code.

Modelling conventions:
* JavaScript plain objects and `Map`s are modelled as insertion-ordered
  association lists (`JSRecord`); `for ... in` iteration follows list order,
  exactly as JS enumerates string keys in insertion order.
* Mutating methods are embedded in state-passing style: each returns the new
  store (paired with the source method's return value where it has one).
* JS `number`s inside the store are modelled as rationals (`ℚ`): the store
  itself only adds, subtracts and multiplies.  The standalone depth utilities
  divide, so they are modelled over `JSNum`, rationals extended with the IEEE
  special values `Infinity`/`NaN`, with the exact IEEE rules for those special
  values (finite arithmetic is kept exact; binary rounding of doubles is not
  modelled, it is irrelevant to the properties proved here).
* A `throw` is embedded as an `Except.error` result; the store state returned
  alongside it is the state at the moment of the throw.
-/

/-- Insertion-ordered association list: the model of a JS object / `Map`.
Keys are unique in every store reachable through the API. -/
abbrev JSRecord (κ α : Type) := List (κ × α)

namespace JSRecord

variable {κ α : Type} [DecidableEq κ]

/-- Property read `obj[key]`: `none` models `undefined` (key absent). -/
def get : JSRecord κ α → κ → Option α
  | [], _ => none
  | (k, v) :: rest, key => if k = key then some v else get rest key

/-- Property write `obj[key] = value` / `map.set(key, value)`: overwrite in
place when the key exists, append otherwise (JS insertion-order semantics). -/
def set : JSRecord κ α → κ → α → JSRecord κ α
  | [], key, v => [(key, v)]
  | (k, w) :: rest, key, v =>
    if k = key then (k, v) :: rest else (k, w) :: set rest key v

/-- Source `delete obj[key]` / `map.delete(key)`: remove the entry for that key
(keys are unique in every reachable store, so keywise removal is exact). -/
def del : JSRecord κ α → κ → JSRecord κ α
  | [], _ => []
  | (k, w) :: rest, key =>
    if k = key then del rest key else (k, w) :: del rest key

/-- Source `Object.keys(obj)` / `map.keys()`. -/
def keys (r : JSRecord κ α) : List κ := r.map Prod.fst

/-- Source `map.values()` / `Object.values(obj)`. -/
def values (r : JSRecord κ α) : List α := r.map Prod.snd

end JSRecord

/-- Source `ENGINE_POSITION_SIDE` (`lib/types/position`). -/
inductive EnginePositionSide where
  | LONG
  | SHORT
  | NONE
deriving DecidableEq, Repr

/-- Source `ENGINE_ORDER_POSITION_SIDE` (`lib/types/position`). -/
inductive EngineOrderPositionSide where
  | LONG
  | SHORT
  | BOTH
deriving DecidableEq, Repr

/-- Source `EngineSimplePosition` (`lib/types/position`). -/
structure EngineSimplePosition where
  symbol : String
  timestampMs : ℚ
  positionSide : EnginePositionSide
  orderPositionSide : EngineOrderPositionSide
  positionPrice : ℚ
  assetQty : ℚ
  value : ℚ
  valueUpnl : ℚ
  marginValue : ℚ
  liquidationPrice : ℚ
  stopLossPrice : Option ℚ
  takeProfitPrice : Option ℚ
deriving DecidableEq, Repr

/-- Order side, from `EngineOrder` (`lib/types/order`). -/
inductive EngineOrderSide where
  | BUY
  | SELL
deriving DecidableEq, Repr

/-- Order status, from `EngineOrder` (`lib/types/order`). -/
inductive EngineOrderStatus where
  | NEW
  | PARTIALLY_FILLED
  | FILLED
  | CANCELLED
  | EXPIRED
  | REJECTED
  | PENDING_CANCEL
deriving DecidableEq, Repr

/-- Order type, from `EngineOrder` (`lib/types/order`). -/
inductive EngineOrderType where
  | LIMIT
  | MARKET
  | STOP
  | STOP_MARKET
  | TAKE_PROFIT
  | TAKE_PROFIT_MARKET
  | TRAILING_STOP_MARKET
deriving DecidableEq, Repr

/-- Source `EngineOrder` (`lib/types/order`). -/
structure EngineOrder where
  exchangeOrderId : String
  customOrderId : String
  symbol : String
  orderSide : EngineOrderSide
  positionSide : EnginePositionSide
  orderType : EngineOrderType
  status : EngineOrderStatus
  price : ℚ
  originalQuantity : ℚ
  executedQuantity : ℚ
  averagePrice : ℚ
  createdAtMs : ℚ
  updatedAtMs : ℚ
  reduceOnly : Option Bool
deriving DecidableEq, Repr

/-- Source `IncomingPriceEvent` (`lib/types/events`; the type file is not in the
repository snapshot — fields are taken from the destructuring
`const { symbol, price } = event` in `processPriceEvent`). -/
structure IncomingPriceEvent where
  symbol : String
  price : ℚ
deriving DecidableEq, Repr

/-- Per-symbol buy/sell leverage pair (`accountLeverageState` entry of the
hedge-mode store variant). -/
structure LeveragePair where
  buy : ℚ
  sell : ℚ
deriving DecidableEq, Repr

/-- The `accountOtherState` record of the store. -/
structure AccountOtherState where
  balance : ℚ
  previousBalance : ℚ
  hedgedPositions : ℕ
deriving DecidableEq, Repr

/-- One symbol's entry of `accountPositionState`: a JS object keyed by
position side whose values may be `undefined` (`Option`), in insertion
order.  `assertInitialStateActivePosition` creates it with all three keys
present and `undefined` values. -/
abbrev PositionSideRecord := JSRecord EnginePositionSide (Option EngineSimplePosition)

/-- The `AccountStateStore` class state (hedge-mode variant with the order
table; the fields shared with the simpler published variant are identical).
`MV` is the value type of the caller-defined per-symbol metadata record,
modelling the `TEnginePositionMetadata extends object` type parameter. -/
structure AccountStateStore (MV : Type) where
  isPendingPersistPositionMetadata : Bool
  accountLeverageState : JSRecord String LeveragePair
  accountPositionState : JSRecord String PositionSideRecord
  accountPositionMetadata : JSRecord String (Option (JSRecord String MV))
  accountOrders : JSRecord String EngineOrder
  accountOtherState : AccountOtherState

/-- A freshly constructed store: all tables empty, flag down, balances 0. -/
def initialStore (MV : Type) : AccountStateStore MV :=
  { isPendingPersistPositionMetadata := false
    accountLeverageState := []
    accountPositionState := []
    accountPositionMetadata := []
    accountOrders := []
    accountOtherState := { balance := 0, previousBalance := 0, hedgedPositions := 0 } }

namespace AccountStateStore

variable {MV : Type}

/-- Source `isPendingPersist()`. -/
def isPendingPersist (s : AccountStateStore MV) : Bool :=
  s.isPendingPersistPositionMetadata

/-- Source `setIsPendingPersist(value)`. -/
def setIsPendingPersist (s : AccountStateStore MV) (value : Bool) :
    AccountStateStore MV :=
  { s with isPendingPersistPositionMetadata := value }

/-- Source `setWalletBalance(bal)`. -/
def setWalletBalance (s : AccountStateStore MV) (bal : ℚ) : AccountStateStore MV :=
  { s with accountOtherState := { s.accountOtherState with balance := bal } }

/-- Source `getWalletBalance()`. -/
def getWalletBalance (s : AccountStateStore MV) : ℚ :=
  s.accountOtherState.balance

/-- Source `storePreviousBalance()`. -/
def storePreviousBalance (s : AccountStateStore MV) : AccountStateStore MV :=
  { s with accountOtherState :=
      { s.accountOtherState with previousBalance := s.getWalletBalance } }

/-- Source `getPreviousBalance()`. -/
def getPreviousBalance (s : AccountStateStore MV) : ℚ :=
  s.accountOtherState.previousBalance

/-- Truthiness of `position?.assetQty` for an (optionally `undefined`)
position slot value: true iff a position is stored with non-zero quantity. -/
def slotActive (slot : Option EngineSimplePosition) : Bool :=
  match slot with
  | some p => p.assetQty ≠ 0
  | none => false

/-- Source `getAllPositions()`: scan all symbols and sides, keeping slots whose
`assetQty` is truthy (non-zero). -/
def getAllPositions (s : AccountStateStore MV) : List EngineSimplePosition :=
  s.accountPositionState.foldl
    (fun acc entry =>
      entry.2.foldl
        (fun acc2 slot =>
          match slot.2 with
          | some p => if p.assetQty ≠ 0 then acc2 ++ [p] else acc2
          | none => acc2)
        acc)
    []

/-- Source `getTotalActivePositions()`: recount `total` and `totalHedged` with the
source's in-loop `positionsForSymbol === 2` check, and cache the hedged count
into `accountOtherState.hedgedPositions`.  Returns `(total, totalHedged)`
paired with the updated store. -/
def getTotalActivePositions (s : AccountStateStore MV) :
    (ℕ × ℕ) × AccountStateStore MV :=
  let counters := s.accountPositionState.foldl
    (fun acc entry =>
      let inner := entry.2.foldl
        (fun st slot =>
          let st1 :=
            if slotActive slot.2 then (st.1 + 1, st.2.1 + 1, st.2.2) else st
          if st1.2.1 = 2 then (st1.1, st1.2.1, st1.2.2 + 1) else st1)
        (acc.1, 0, acc.2)
      (inner.1, inner.2.2))
    ((0 : ℕ), (0 : ℕ))
  ((counters.1, counters.2),
    { s with accountOtherState :=
        { s.accountOtherState with hedgedPositions := counters.2 } })

/-- Source `getTotalHedgedPositions()`: the cached count, no recomputation. -/
def getTotalHedgedPositions (s : AccountStateStore MV) : ℕ :=
  s.accountOtherState.hedgedPositions

/-- Source `assertInitialStateActivePosition(symbol)` (private): on first access to
a symbol, create its side record with all three keys present and
`undefined` values. -/
def assertInitialStateActivePosition (s : AccountStateStore MV) (symbol : String) :
    AccountStateStore MV :=
  match s.accountPositionState.get symbol with
  | some _ => s
  | none =>
    let fresh : PositionSideRecord :=
      [(EnginePositionSide.LONG, none), (EnginePositionSide.SHORT, none),
        (EnginePositionSide.NONE, none)]
    { s with accountPositionState := s.accountPositionState.set symbol fresh }

/-- Source `getActivePosition(symbol, side)`: auto-initializes the symbol record
(intentional side effect), then reads the slot; `undefined` (absent key or
`undefined` value) is `none`. -/
def getActivePosition (s : AccountStateStore MV) (symbol : String)
    (side : EnginePositionSide) :
    Option EngineSimplePosition × AccountStateStore MV :=
  let s1 := s.assertInitialStateActivePosition symbol
  (((s1.accountPositionState.get symbol).getD []).get side |>.join, s1)

/-- Source `setActivePosition(symbol, side, newState)`: unconditional slot overwrite
(after auto-initialization). -/
def setActivePosition (s : AccountStateStore MV) (symbol : String)
    (side : EnginePositionSide) (newState : EngineSimplePosition) :
    AccountStateStore MV :=
  let s1 := s.assertInitialStateActivePosition symbol
  let record := ((s1.accountPositionState.get symbol).getD []).set side (some newState)
  { s1 with accountPositionState := s1.accountPositionState.set symbol record }

/-- Source `deleteActivePosition(symbol, side)`: `delete` of the side key (after
auto-initialization). -/
def deleteActivePosition (s : AccountStateStore MV) (symbol : String)
    (side : EnginePositionSide) : AccountStateStore MV :=
  let s1 := s.assertInitialStateActivePosition symbol
  let record := ((s1.accountPositionState.get symbol).getD []).del side
  { s1 with accountPositionState := s1.accountPositionState.set symbol record }

/-- Source `isSymbolSideInPosition(symbol, positionSide)`: truthy non-zero quantity
in that slot (the read auto-initializes the symbol record). -/
def isSymbolSideInPosition (s : AccountStateStore MV) (symbol : String)
    (side : EnginePositionSide) : Bool × AccountStateStore MV :=
  let r := s.getActivePosition symbol side
  (slotActive r.1, r.2)

/-- Source `isSymbolInAnyPosition(symbol)`: `||` of the two side checks, with JS
short-circuit evaluation. -/
def isSymbolInAnyPosition (s : AccountStateStore MV) (symbol : String) :
    Bool × AccountStateStore MV :=
  let l := s.isSymbolSideInPosition symbol EnginePositionSide.LONG
  if l.1 then (true, l.2)
  else l.2.isSymbolSideInPosition symbol EnginePositionSide.SHORT

/-- Source `isDualPositionMode()`. -/
def isDualPositionMode (_s : AccountStateStore MV) : Bool := true

/-- Source `setSymbolLeverage(symbol, leverage)` (hedge-mode variant: symmetric
buy/sell pair). -/
def setSymbolLeverage (s : AccountStateStore MV) (symbol : String) (leverage : ℚ) :
    AccountStateStore MV :=
  { s with accountLeverageState :=
      s.accountLeverageState.set symbol { buy := leverage, sell := leverage } }

/-- Source `setSymbolSideLeverage(symbol, side, leverage)`: create a symmetric pair
when the symbol is unknown, otherwise overwrite one side. -/
def setSymbolSideLeverage (s : AccountStateStore MV) (symbol : String)
    (side : EngineOrderSide) (leverage : ℚ) : AccountStateStore MV :=
  match s.accountLeverageState.get symbol with
  | none =>
    let pair : LeveragePair := { buy := leverage, sell := leverage }
    { s with accountLeverageState := s.accountLeverageState.set symbol pair }
  | some pair =>
    let updated :=
      match side with
      | EngineOrderSide.BUY => { pair with buy := leverage }
      | EngineOrderSide.SELL => { pair with sell := leverage }
    { s with accountLeverageState := s.accountLeverageState.set symbol updated }

/-- Source `getSymbolLeverage(symbol)`. -/
def getSymbolLeverage (s : AccountStateStore MV) (symbol : String) :
    Option LeveragePair :=
  s.accountLeverageState.get symbol

/-- Source `getSymbolLeverageCache()`. -/
def getSymbolLeverageCache (s : AccountStateStore MV) : JSRecord String LeveragePair :=
  s.accountLeverageState

/-- Source `setAllSymbolMetadata(data)`: wholesale overwrite of the metadata table
(no pending-persist change in the source). -/
def setAllSymbolMetadata (s : AccountStateStore MV)
    (data : JSRecord String (Option (JSRecord String MV))) : AccountStateStore MV :=
  { s with accountPositionMetadata := data }

/-- Source `getAllSymbolMetadata()`. -/
def getAllSymbolMetadata (s : AccountStateStore MV) :
    JSRecord String (Option (JSRecord String MV)) :=
  s.accountPositionMetadata

/-- Source `getSymbolsWithMetadata()`. -/
def getSymbolsWithMetadata (s : AccountStateStore MV) : List String :=
  s.accountPositionMetadata.keys

/-- Source `getSymbolMetadata(symbol)`: `undefined` for an absent key or an
`undefined` value. -/
def getSymbolMetadata (s : AccountStateStore MV) (symbol : String) :
    Option (JSRecord String MV) :=
  (s.accountPositionMetadata.get symbol).join

/-- Source `setSymbolMetadata(symbol, data)`: overwrite and raise pending-persist;
returns `data`. -/
def setSymbolMetadata (s : AccountStateStore MV) (symbol : String)
    (data : JSRecord String MV) : JSRecord String MV × AccountStateStore MV :=
  (data,
    { s with
        accountPositionMetadata := s.accountPositionMetadata.set symbol (some data)
        isPendingPersistPositionMetadata := true })

/-- Source `deletePositionMetadata(symbol)`: remove the key and raise
pending-persist. -/
def deletePositionMetadata (s : AccountStateStore MV) (symbol : String) :
    AccountStateStore MV :=
  { s with
      accountPositionMetadata := s.accountPositionMetadata.del symbol
      isPendingPersistPositionMetadata := true }

/-- The `Error` message thrown by `setSymbolMetadataValue` when the symbol's
metadata was never initialized. -/
def metadataNotInitialisedMessage : String :=
  "Symbol metadata not initilised. Prepare full metadata state via setSymbolMetadata() before using the setSymbolMetadataValue() method!"

/-- Source `setSymbolMetadataValue(symbol, key, newValue)`: throws when no metadata
exists for the symbol (state returned untouched — the throw happens before
any write); otherwise sets one field of the existing record in place and
raises pending-persist, returning the record. -/
def setSymbolMetadataValue (s : AccountStateStore MV) (symbol : String)
    (key : String) (newValue : MV) :
    Except String (JSRecord String MV) × AccountStateStore MV :=
  match s.getSymbolMetadata symbol with
  | none => (Except.error metadataNotInitialisedMessage, s)
  | some symbolMetadata =>
    let updated := symbolMetadata.set key newValue
    (Except.ok updated,
      { s with
          accountPositionMetadata :=
            s.accountPositionMetadata.set symbol (some updated)
          isPendingPersistPositionMetadata := true })

/-- Source `getOrders()`: all stored orders, in `Map` insertion order. -/
def getOrders (s : AccountStateStore MV) : List EngineOrder :=
  s.accountOrders.values

/-- Source `getActiveOrders()`: defensive filter to NEW / PARTIALLY_FILLED. -/
def getActiveOrders (s : AccountStateStore MV) : List EngineOrder :=
  s.getOrders.filter fun order =>
    order.status = EngineOrderStatus.NEW ∨
      order.status = EngineOrderStatus.PARTIALLY_FILLED

/-- Source `getOrdersForSymbol(symbol)`. -/
def getOrdersForSymbol (s : AccountStateStore MV) (symbol : String) :
    List EngineOrder :=
  s.getOrders.filter fun order => order.symbol = symbol

/-- Source `getOrdersForSymbolSide(symbol, side)`. -/
def getOrdersForSymbolSide (s : AccountStateStore MV) (symbol : String)
    (side : EngineOrderSide) : List EngineOrder :=
  s.getOrders.filter fun order => order.symbol = symbol ∧ order.orderSide = side

/-- Source `getOrder(orderId)`. -/
def getOrder (s : AccountStateStore MV) (orderId : String) : Option EngineOrder :=
  s.accountOrders.get orderId

/-- Source `deleteOrder(orderId)`. -/
def deleteOrder (s : AccountStateStore MV) (orderId : String) :
    AccountStateStore MV :=
  { s with accountOrders := s.accountOrders.del orderId }

/-- Source `upsertActiveOrder(order)`: store/overwrite keyed by exchange order id
when the status is NEW or PARTIALLY_FILLED, delete the id otherwise. -/
def upsertActiveOrder (s : AccountStateStore MV) (order : EngineOrder) :
    AccountStateStore MV :=
  if order.status = EngineOrderStatus.NEW ∨
      order.status = EngineOrderStatus.PARTIALLY_FILLED then
    { s with accountOrders := s.accountOrders.set order.exchangeOrderId order }
  else
    s.deleteOrder order.exchangeOrderId

/-- Source `clearAllOrders()`. -/
def clearAllOrders (s : AccountStateStore MV) : AccountStateStore MV :=
  { s with accountOrders := [] }

/-- Source `getOrdersByStatus(status)`. -/
def getOrdersByStatus (s : AccountStateStore MV) (status : EngineOrderStatus) :
    List EngineOrder :=
  s.getOrders.filter fun order => order.status = status

/-- Source `getOrdersByType(orderType)`. -/
def getOrdersByType (s : AccountStateStore MV) (orderType : EngineOrderType) :
    List EngineOrder :=
  s.getOrders.filter fun order => order.orderType = orderType

/-- Source `getUnrealisedPNL(lastSeenPrice, positionAssetQuantity,
positionAvgEntryPrice)` (`util/math`): quantity times price difference. -/
def getUnrealisedPNL (lastSeenPrice positionAssetQuantity positionAvgEntryPrice : ℚ) : ℚ :=
  positionAssetQuantity * (lastSeenPrice - positionAvgEntryPrice)

/-- Models the aliased in-place field write `pos.valueUpnl = ...` on the
object stored in a position slot: write the updated object back to the slot
the alias points into. -/
def writeSlotUpnl (s : AccountStateStore MV) (symbol : String)
    (side : EnginePositionSide) (p : EngineSimplePosition) (upnl : ℚ) :
    AccountStateStore MV :=
  let record := ((s.accountPositionState.get symbol).getD []).set side
    (some { p with valueUpnl := upnl })
  { s with accountPositionState := s.accountPositionState.set symbol record }

/-- Source `processPriceEvent(event)`: recompute `valueUpnl` in place for the LONG
and SHORT positions of the event's symbol, when they exist. -/
def processPriceEvent (s : AccountStateStore MV) (event : IncomingPriceEvent) :
    AccountStateStore MV :=
  let long := s.getActivePosition event.symbol EnginePositionSide.LONG
  let s1 :=
    match long.1 with
    | some p =>
      writeSlotUpnl long.2 event.symbol EnginePositionSide.LONG p
        (getUnrealisedPNL event.price p.assetQty p.positionPrice)
    | none => long.2
  let short := s1.getActivePosition event.symbol EnginePositionSide.SHORT
  match short.1 with
  | some p =>
    writeSlotUpnl short.2 event.symbol EnginePositionSide.SHORT p
      (getUnrealisedPNL event.price p.assetQty p.positionPrice)
  | none => short.2

/-- One entry of `getSessionSummary`'s `activePositions`: the position spread
together with its `leverage` annotation
(`pos.positionSide === 'LONG' ? leverageData?.buy : leverageData?.sell`). -/
structure SessionPosition where
  pos : EngineSimplePosition
  leverage : Option ℚ
deriving DecidableEq, Repr

/-- The `quoteBalanceState` record of the session summary. -/
structure QuoteBalanceState where
  startedWith : ℚ
  now : ℚ
  quoteMarginLockedSum : ℚ
  nowInclLocked : ℚ
  nowIfEverythingClosedAtMarket : ℚ
deriving DecidableEq, Repr

/-- The `pnlState` record of the session summary. -/
structure PnlState where
  realisedPnl : ℚ
  unrealisedPnl : ℚ
deriving DecidableEq, Repr

/-- The record returned by `getSessionSummary`. -/
structure SessionSummary where
  activePositions : List SessionPosition
  activePositionUpnlSum : ℚ
  quoteBalanceState : QuoteBalanceState
  pnlState : PnlState
deriving DecidableEq, Repr

/-- Source `getSessionSummary(startingBalance)`: a read-only PnL snapshot.  The
source never writes store state in this method (the spread `{...pos, ...}`
copies each position), so the threaded state is returned unchanged. -/
def getSessionSummary (s : AccountStateStore MV) (startingBalance : ℚ) :
    SessionSummary × AccountStateStore MV :=
  let balanceNow := s.getWalletBalance
  let positions := s.getAllPositions.map fun pos =>
    let leverageData := s.getSymbolLeverage pos.symbol
    ({ pos := pos
       leverage :=
        match pos.positionSide with
        | EnginePositionSide.LONG => leverageData.map LeveragePair.buy
        | _ => leverageData.map LeveragePair.sell } : SessionPosition)
  let sums := positions.foldl
    (fun acc position =>
      (acc.1 + position.pos.valueUpnl, acc.2 + position.pos.marginValue))
    ((0 : ℚ), (0 : ℚ))
  let activePositionUpnlSum := sums.1
  let quoteMarginLockedSum := sums.2
  let realisedPnl := balanceNow - startingBalance
  ({ activePositions := positions
     activePositionUpnlSum := activePositionUpnlSum
     quoteBalanceState :=
      { startedWith := startingBalance
        now := balanceNow
        quoteMarginLockedSum := quoteMarginLockedSum
        nowInclLocked := startingBalance - quoteMarginLockedSum
        nowIfEverythingClosedAtMarket := startingBalance + activePositionUpnlSum }
     pnlState :=
      { realisedPnl := realisedPnl
        unrealisedPnl := activePositionUpnlSum } }, s)

end AccountStateStore

/-- A JS `number` for the standalone math utilities: a rational extended with
the IEEE special values.  `inf true` is `+Infinity`, `inf false` is
`-Infinity`.  Finite arithmetic is exact (double rounding is not modelled);
the special-value rules below are the IEEE ones JS uses. -/
inductive JSNum where
  | nan : JSNum
  | inf : Bool → JSNum
  | fin : ℚ → JSNum
deriving DecidableEq, Repr

namespace JSNum

/-- JS truthiness of a number: `NaN` and `0` are falsy. -/
def truthy : JSNum → Bool
  | nan => false
  | inf _ => true
  | fin q => q ≠ 0

/-- Source `x || y` on numbers: `y` when `x` is falsy. -/
def jsOr (x y : JSNum) : JSNum := if x.truthy then x else y

/-- Unary negation. -/
def neg : JSNum → JSNum
  | nan => nan
  | inf b => inf !b
  | fin q => fin (-q)

/-- Addition with the IEEE special-value rules. -/
def add : JSNum → JSNum → JSNum
  | nan, _ => nan
  | _, nan => nan
  | inf a, inf b => if a = b then inf a else nan
  | inf a, fin _ => inf a
  | fin _, inf b => inf b
  | fin q, fin r => fin (q + r)

/-- Subtraction: `x + (-y)`. -/
def sub (x y : JSNum) : JSNum := x.add y.neg

/-- Multiplication with the IEEE special-value rules (signed zeros are not
tracked; a zero result is `fin 0`). -/
def mul : JSNum → JSNum → JSNum
  | nan, _ => nan
  | _, nan => nan
  | inf a, inf b => inf (a = b)
  | inf a, fin q => if q = 0 then nan else inf (a = decide (0 < q))
  | fin q, inf b => if q = 0 then nan else inf (b = decide (0 < q))
  | fin q, fin r => fin (q * r)

/-- Division with the IEEE special-value rules; a finite numerator divided by
zero is a signed infinity (`0 / 0` is `NaN`). -/
def div : JSNum → JSNum → JSNum
  | nan, _ => nan
  | _, nan => nan
  | inf _, inf _ => nan
  | inf a, fin q => if q = 0 then inf a else inf (a = decide (0 < q))
  | fin _, inf _ => fin 0
  | fin q, fin r =>
    if r = 0 then (if q = 0 then nan else inf (decide (0 < q)))
    else fin (q / r)

/-- Source `Math.abs`. -/
def abs : JSNum → JSNum
  | nan => nan
  | inf _ => inf true
  | fin q => fin |q|

/-- Source `x >= y` on numbers: false whenever either side is `NaN`. -/
def jsGe : JSNum → JSNum → Bool
  | nan, _ => false
  | _, nan => false
  | inf a, inf b => a ∨ !b
  | inf a, fin _ => a
  | fin _, inf b => !b
  | fin q, fin r => q ≥ r

end JSNum

/-- Source `toFixedNumber(x)` (`util/math`) at its default 2 decimal places:
`Number(Number(x).toFixed(2))`.  Rounding to the nearest hundredth, ties
toward the larger value, per the `toFixed` specification; `Infinity` and
`NaN` round-trip through the string unchanged.  (Artefacts of binary double
representation inside `toFixed` are not modelled.) -/
def toFixedNumber (x : JSNum) : JSNum :=
  match x with
  | JSNum.nan => JSNum.nan
  | JSNum.inf b => JSNum.inf b
  | JSNum.fin q => JSNum.fin ((⌊q * 100 + 1/2⌋ : ℤ) / (100 : ℚ))

/-- Source `PositionDepthState` (`util/position.types`). -/
structure PositionDepthState where
  asset : String
  symbol : String
  positionAmount : JSNum
  estimatedValue : JSNum
  estimatedValueWithLeverage : JSNum
  positionDepth : JSNum
  positionDepthUnrealised : JSNum
  balanceRemaining : JSNum
  unrealisedPnL : JSNum
  estimatedPnlPct : JSNum
deriving DecidableEq, Repr

/-- Source `DepthSummary` (`util/position.types`). -/
structure DepthSummary where
  rawDepthSum : JSNum
  estimatedValueWithLeverage : JSNum
  unrealisedPnL : JSNum
  crossBalance : JSNum
  depthWithoutPnL : JSNum
  depthWithPnL : JSNum
deriving DecidableEq, Repr

/-- Source `getUnrealisedPnl(activePositions)` (`util/position`): sum of
`valueUpnl` over the given positions (a `reduce` from 0). -/
def getUnrealisedPnl (activePositions : List EngineSimplePosition) : ℚ :=
  activePositions.foldl (fun acc position => acc + position.valueUpnl) 0

/-- Source `calculateDepthForPosition(...)` (`util/position`): per-position depth
report.  No input is validated; every division is performed as written. -/
def calculateDepthForPosition (asset symbol : String)
    (baseAssetBalance positionAmount entryPrice unrealisedPnl
      totalNetUnrealisedPnl leverage : JSNum) : PositionDepthState :=
  let estimatedValue := (positionAmount.mul entryPrice).abs
  let estimatedValueWithLeverage :=
    (estimatedValue.div (leverage.jsOr (JSNum.fin 1))).abs
  let positionDepth :=
    (estimatedValueWithLeverage.div baseAssetBalance).mul (JSNum.fin 100)
  let positionDepthUnrealised :=
    ((estimatedValueWithLeverage.sub totalNetUnrealisedPnl).div
        baseAssetBalance).mul (JSNum.fin 100)
  let balanceRemaining := baseAssetBalance.sub estimatedValueWithLeverage
  let estimatedPnlPct :=
    (unrealisedPnl.div estimatedValueWithLeverage).mul (JSNum.fin 100)
  { asset := asset
    symbol := symbol
    positionAmount := positionAmount
    estimatedValue := toFixedNumber estimatedValue
    estimatedValueWithLeverage := toFixedNumber estimatedValueWithLeverage
    positionDepth := toFixedNumber positionDepth
    positionDepthUnrealised := toFixedNumber positionDepthUnrealised
    balanceRemaining := toFixedNumber balanceRemaining
    unrealisedPnL := toFixedNumber unrealisedPnl
    estimatedPnlPct := toFixedNumber estimatedPnlPct }

/-- Source `calculateDepthForPositions(...)` (`util/position`): map the per-position
calculation over all positions, with `symbolLeverageCache[symbol] || 1` as
the leverage (this caller reads the single-number leverage cache of the
published store variant). -/
def calculateDepthForPositions (balanceAvailable : JSNum)
    (symbolLeverageCache : JSRecord String ℚ)
    (positions : Option (List EngineSimplePosition))
    (quoteBalanceAsset : String) : List PositionDepthState :=
  match positions with
  | none => []
  | some positions =>
    let totalNetUnrealisedPnl := getUnrealisedPnl positions
    positions.map fun p =>
      calculateDepthForPosition quoteBalanceAsset p.symbol balanceAvailable
        (JSNum.fin p.assetQty) (JSNum.fin p.positionPrice)
        (JSNum.fin p.valueUpnl) (JSNum.fin totalNetUnrealisedPnl)
        ((match symbolLeverageCache.get p.symbol with
          | some l => JSNum.fin l
          | none => JSNum.nan).jsOr (JSNum.fin 1))

/-- Source `calulateDepthSummaryForAllPositions(...)` (`util/position`; the
misspelling is the source's).  `leverageType` is one of the strings
`'cross'` / `'isolated'`; the source tests its truthiness (both values are
truthy non-empty strings). -/
def calulateDepthSummaryForAllPositions (balance : JSNum)
    (symbolLeverageCache : JSRecord String ℚ)
    (positions : Option (List EngineSimplePosition))
    (quoteBalanceAsset : String) (leverageType : String) : DepthSummary :=
  let depthByPosition :=
    calculateDepthForPositions balance symbolLeverageCache positions
      quoteBalanceAsset
  let sums := depthByPosition.foldl
    (fun acc pos =>
      (acc.1.add pos.positionDepth,
        acc.2.1.add pos.estimatedValueWithLeverage,
        acc.2.2.add (if leverageType ≠ "" then pos.unrealisedPnL else JSNum.fin 0)))
    (JSNum.fin 0, JSNum.fin 0, JSNum.fin 0)
  let crossBalance := balance.add sums.2.2
  let depthWithoutPnL := (sums.2.1.div balance).mul (JSNum.fin 100)
  let depthWithPnL := (sums.2.1.div crossBalance).mul (JSNum.fin 100)
  { rawDepthSum := sums.1
    estimatedValueWithLeverage := sums.2.1
    unrealisedPnL := sums.2.2
    crossBalance := toFixedNumber crossBalance
    depthWithoutPnL := toFixedNumber depthWithoutPnL
    depthWithPnL :=
      toFixedNumber
        (if depthWithPnL.jsGe (JSNum.fin 100) then JSNum.fin 100 else depthWithPnL) }

namespace AccountStateStore

variable {MV : Type}

/-- Verification helper: the raw value of a position slot, read without the
auto-initialization side effect of `getActivePosition`. -/
def readSlot (s : AccountStateStore MV) (symbol : String)
    (side : EnginePositionSide) : Option EngineSimplePosition :=
  (((s.accountPositionState.get symbol).getD []).get side).join

end AccountStateStore

/-- Sample position used by the concrete theorems: only the fields the
claims inspect are non-trivial. -/
def samplePosition (symbol : String) (side : EnginePositionSide)
    (qty price upnl margin : ℚ) : EngineSimplePosition :=
  { symbol := symbol
    timestampMs := 0
    positionSide := side
    orderPositionSide := EngineOrderPositionSide.BOTH
    positionPrice := price
    assetQty := qty
    value := 0
    valueUpnl := upnl
    marginValue := margin
    liquidationPrice := 0
    stopLossPrice := none
    takeProfitPrice := none }

/-- Sample order used by the concrete theorems. -/
def sampleOrder (id : String) (status : EngineOrderStatus) : EngineOrder :=
  { exchangeOrderId := id
    customOrderId := "c1"
    symbol := "X"
    orderSide := EngineOrderSide.BUY
    positionSide := EnginePositionSide.LONG
    orderType := EngineOrderType.LIMIT
    status := status
    price := 100
    originalQuantity := 2
    executedQuantity := 1
    averagePrice := 100
    createdAtMs := 0
    updatedAtMs := 0
    reduceOnly := none }

/-- Store with a LONG (qty 2, entry 100) and a SHORT (qty -2, entry 100)
position on symbol "X" and nothing else. -/
def storeHedgedX : AccountStateStore Unit :=
  ((initialStore Unit).setActivePosition "X" EnginePositionSide.LONG
      (samplePosition "X" EnginePositionSide.LONG 2 100 0 0)).setActivePosition
    "X" EnginePositionSide.SHORT
    (samplePosition "X" EnginePositionSide.SHORT (-2) 100 0 0)

/-- Store with only a LONG (qty 2, entry 100) position on symbol "X". -/
def storeLongOnlyX : AccountStateStore Unit :=
  (initialStore Unit).setActivePosition "X" EnginePositionSide.LONG
    (samplePosition "X" EnginePositionSide.LONG 2 100 0 0)

namespace JSRecord

variable {κ α : Type} [DecidableEq κ]

theorem get_set_self (r : JSRecord κ α) (k : κ) (v : α) :
    (r.set k v).get k = some v := by
  induction r with
  | nil => simp [get, set]
  | cons hd tl ih =>
    obtain ⟨k', w⟩ := hd
    by_cases h : k' = k <;> simp [get, set, h, ih]

theorem get_set_ne (r : JSRecord κ α) (k k' : κ) (v : α) (h : k ≠ k') :
    (r.set k v).get k' = r.get k' := by
  induction r with
  | nil => simp [get, set, h]
  | cons hd tl ih =>
    obtain ⟨k0, w⟩ := hd
    by_cases h0 : k0 = k
    · subst h0
      simp [get, set, h]
    · simp [get, set, h0, ih]

theorem get_del_self (r : JSRecord κ α) (k : κ) :
    (r.del k).get k = none := by
  induction r with
  | nil => simp [get, del]
  | cons hd tl ih =>
    obtain ⟨k0, w⟩ := hd
    by_cases h0 : k0 = k <;> simp [get, del, h0, ih]

theorem get_del_ne (r : JSRecord κ α) (k k' : κ) (h : k ≠ k') :
    (r.del k).get k' = r.get k' := by
  induction r with
  | nil => simp [get, del]
  | cons hd tl ih =>
    obtain ⟨k0, w⟩ := hd
    by_cases h0 : k0 = k
    · subst h0
      simp [get, del, h, ih]
    · simp [get, del, h0, ih]

end JSRecord

namespace AccountStateStore

variable {MV : Type}

theorem readSlot_assertInitial (s : AccountStateStore MV) (symbol : String)
    (side : EnginePositionSide) :
    (s.assertInitialStateActivePosition symbol).readSlot symbol side
      = s.readSlot symbol side := by
  unfold assertInitialStateActivePosition readSlot
  cases h : s.accountPositionState.get symbol with
  | some record => simp [h]
  | none =>
    simp [h, JSRecord.get_set_self]
    cases side <;> simp [JSRecord.get]

theorem getActivePosition_fst (s : AccountStateStore MV) (symbol : String)
    (side : EnginePositionSide) :
    (s.getActivePosition symbol side).1 = s.readSlot symbol side := by
  unfold getActivePosition
  simpa [readSlot] using readSlot_assertInitial s symbol side

theorem getActivePosition_snd (s : AccountStateStore MV) (symbol : String)
    (side : EnginePositionSide) :
    (s.getActivePosition symbol side).2 = s.assertInitialStateActivePosition symbol :=
  rfl

theorem assertInitial_get_isSome (s : AccountStateStore MV) (symbol : String) :
    ((s.assertInitialStateActivePosition symbol).accountPositionState.get symbol).isSome := by
  unfold assertInitialStateActivePosition
  cases h : s.accountPositionState.get symbol with
  | some record => simp [h]
  | none => simp [JSRecord.get_set_self]

theorem assertInitial_of_isSome (s : AccountStateStore MV) (symbol : String)
    (h : (s.accountPositionState.get symbol).isSome) :
    s.assertInitialStateActivePosition symbol = s := by
  unfold assertInitialStateActivePosition
  cases h2 : s.accountPositionState.get symbol with
  | some record => simp
  | none => rw [h2] at h; simp at h

theorem writeSlotUpnl_get_isSome (s : AccountStateStore MV) (symbol : String)
    (side : EnginePositionSide) (p : EngineSimplePosition) (u : ℚ) :
    ((s.writeSlotUpnl symbol side p u).accountPositionState.get symbol).isSome := by
  unfold writeSlotUpnl
  simp [JSRecord.get_set_self]

theorem readSlot_writeSlotUpnl_self (s : AccountStateStore MV) (symbol : String)
    (side : EnginePositionSide) (p : EngineSimplePosition) (u : ℚ) :
    (s.writeSlotUpnl symbol side p u).readSlot symbol side
      = some { p with valueUpnl := u } := by
  unfold writeSlotUpnl readSlot
  simp [JSRecord.get_set_self]

theorem readSlot_writeSlotUpnl_other (s : AccountStateStore MV) (symbol : String)
    (side side' : EnginePositionSide) (p : EngineSimplePosition) (u : ℚ)
    (h : side ≠ side') :
    (s.writeSlotUpnl symbol side p u).readSlot symbol side'
      = s.readSlot symbol side' := by
  unfold writeSlotUpnl readSlot
  simp [JSRecord.get_set_self, JSRecord.get_set_ne _ _ _ _ h]

theorem isPendingPersist_assertInitial (s : AccountStateStore MV) (symbol : String) :
    (s.assertInitialStateActivePosition symbol).isPendingPersist = s.isPendingPersist := by
  unfold assertInitialStateActivePosition
  cases s.accountPositionState.get symbol <;> rfl

theorem isPendingPersist_writeSlotUpnl (s : AccountStateStore MV) (symbol : String)
    (side : EnginePositionSide) (p : EngineSimplePosition) (u : ℚ) :
    (s.writeSlotUpnl symbol side p u).isPendingPersist = s.isPendingPersist := rfl

end AccountStateStore

/-- C1: on a store where exactly the LONG and SHORT slots of symbol "X" are
active, `getTotalActivePositions()` is claimed to return
`{total: 2, totalHedged: 1}`.  The code instead returns
`{total: 2, totalHedged: 2}`: the `positionsForSymbol === 2` check sits
inside the side loop, so after the SHORT slot it fires again on the
always-present NONE key, double counting the hedged symbol.  The second
scenario of the claim (only LONG active gives `{total: 1, totalHedged: 0}`)
does hold. -/
theorem getTotalActivePositions_hedged_double_count :
    storeHedgedX.getTotalActivePositions.1 = (2, 2) ∧
    storeLongOnlyX.getTotalActivePositions.1 = (1, 0) := by
  constructor <;> decide

/-- C2 counterexample: `setAllSymbolMetadata` is a mutating metadata
operation after which `isPendingPersist()` still returns `false` on a fresh
store — the claim that every mutating metadata operation leaves the flag
`true` is refuted. -/
theorem setAllSymbolMetadata_leaves_flag_down :
    ((initialStore String).setAllSymbolMetadata
        [("X", some [("k", "v")])]).isPendingPersist = false := rfl

/-- C2 (amended): `setSymbolMetadata` and `deletePositionMetadata` always
leave `isPendingPersist()` returning `true`, and so does a successful
`setSymbolMetadataValue`; the bulk overwrite `setAllSymbolMetadata` leaves
the flag unchanged; `setIsPendingPersist(b)` sets the flag to `b`, so an
explicit `setIsPendingPersist(false)` is the only way the flag returns to
`false`. -/
theorem metadata_flag_discipline {MV : Type} (s : AccountStateStore MV)
    (symbol key : String) (d : JSRecord String MV) (v : MV)
    (data : JSRecord String (Option (JSRecord String MV))) (b : Bool) :
    (s.setSymbolMetadata symbol d).2.isPendingPersist = true ∧
    (s.deletePositionMetadata symbol).isPendingPersist = true ∧
    (∀ m, s.getSymbolMetadata symbol = some m →
      (s.setSymbolMetadataValue symbol key v).2.isPendingPersist = true) ∧
    (s.setAllSymbolMetadata data).isPendingPersist = s.isPendingPersist ∧
    (s.setIsPendingPersist b).isPendingPersist = b := by
  refine ⟨rfl, rfl, ?_, rfl, rfl⟩
  intro m hm
  unfold AccountStateStore.setSymbolMetadataValue
  rw [hm]
  rfl

/-- C2 witness: the amended statement applied on a concrete store whose
metadata for "X" was initialized (then acknowledged), discharging the
success-path hypothesis of `setSymbolMetadataValue`. -/
theorem metadata_flag_discipline_witness :
    ((((initialStore String).setSymbolMetadata "X" [("k", "v")]).2.setIsPendingPersist
        false).setSymbolMetadataValue "X" "k" "w").2.isPendingPersist = true := by
  have h := metadata_flag_discipline
    (((initialStore String).setSymbolMetadata "X" [("k", "v")]).2.setIsPendingPersist false)
    "X" "k" [("k", "v")] "w" [] true
  exact h.2.2.1 [("k", "v")] (by decide)

/-- C5: `setSymbolMetadataValue` on a symbol with no metadata fails with the
precondition error and changes nothing: the store (hence the pending-persist
flag and the metadata table) is exactly as before the call. -/
theorem setSymbolMetadataValue_requires_initialised {MV : Type}
    (s : AccountStateStore MV) (symbol key : String) (v : MV)
    (h : s.getSymbolMetadata symbol = none) :
    (s.setSymbolMetadataValue symbol key v).1
        = Except.error AccountStateStore.metadataNotInitialisedMessage ∧
    (s.setSymbolMetadataValue symbol key v).2 = s ∧
    (s.setSymbolMetadataValue symbol key v).2.isPendingPersist = s.isPendingPersist ∧
    (s.setSymbolMetadataValue symbol key v).2.accountPositionMetadata
        = s.accountPositionMetadata := by
  unfold AccountStateStore.setSymbolMetadataValue
  rw [h]
  exact ⟨rfl, rfl, rfl, rfl⟩

/-- C5 witness: the precondition failure on a fresh store, where no metadata
was ever written for "X". -/
theorem setSymbolMetadataValue_requires_initialised_witness :
    ((initialStore String).setSymbolMetadataValue "X" "k" "v").1
        = Except.error AccountStateStore.metadataNotInitialisedMessage ∧
    ((initialStore String).setSymbolMetadataValue "X" "k" "v").2 = initialStore String := by
  have h := setSymbolMetadataValue_requires_initialised (initialStore String)
    "X" "k" "v" rfl
  exact ⟨h.1, h.2.1⟩

/-- C8: `getSessionSummary` does not mutate store state: the store threaded
through the call comes back exactly as it went in (positions, orders,
leverage, metadata, balances and the pending-persist flag included). -/
theorem getSessionSummary_does_not_mutate {MV : Type} (s : AccountStateStore MV)
    (startingBalance : ℚ) :
    (s.getSessionSummary startingBalance).2 = s := rfl

/-- C9: the persistence round-trip `setAllSymbolMetadata(getAllSymbolMetadata())`
is the identity on the store — the metadata table is unchanged and the
pending-persist flag keeps its prior value. -/
theorem setAllSymbolMetadata_roundtrip {MV : Type} (s : AccountStateStore MV) :
    s.setAllSymbolMetadata s.getAllSymbolMetadata = s ∧
    (s.setAllSymbolMetadata s.getAllSymbolMetadata).isPendingPersist
        = s.isPendingPersist := ⟨rfl, rfl⟩

namespace AccountStateStore

theorem processPriceEvent_readSlot_long {MV : Type} (s : AccountStateStore MV)
    (symbol : String) (price : ℚ) (p : EngineSimplePosition)
    (hp : s.readSlot symbol EnginePositionSide.LONG = some p) :
    (s.processPriceEvent { symbol := symbol, price := price }).readSlot symbol
        EnginePositionSide.LONG
      = some { p with valueUpnl := getUnrealisedPNL price p.assetQty p.positionPrice } := by
  unfold processPriceEvent
  simp only [getActivePosition_fst, getActivePosition_snd, readSlot_assertInitial]
  rw [hp]
  dsimp only
  rw [assertInitial_of_isSome _ _ (writeSlotUpnl_get_isSome _ _ _ _ _)]
  cases hS : ((s.assertInitialStateActivePosition symbol).writeSlotUpnl symbol
      EnginePositionSide.LONG p
      (getUnrealisedPNL price p.assetQty p.positionPrice)).readSlot symbol
      EnginePositionSide.SHORT with
  | none => rw [readSlot_writeSlotUpnl_self]
  | some q =>
    rw [readSlot_writeSlotUpnl_other _ _ _ _ _ _ (by decide),
      readSlot_writeSlotUpnl_self]

theorem processPriceEvent_readSlot_short {MV : Type} (s : AccountStateStore MV)
    (symbol : String) (price : ℚ) (p : EngineSimplePosition)
    (hp : s.readSlot symbol EnginePositionSide.SHORT = some p) :
    (s.processPriceEvent { symbol := symbol, price := price }).readSlot symbol
        EnginePositionSide.SHORT
      = some { p with valueUpnl := getUnrealisedPNL price p.assetQty p.positionPrice } := by
  unfold processPriceEvent
  simp only [getActivePosition_fst, getActivePosition_snd, readSlot_assertInitial]
  cases hL : s.readSlot symbol EnginePositionSide.LONG with
  | none =>
    dsimp only
    rw [readSlot_assertInitial, hp]
    dsimp only
    rw [assertInitial_of_isSome _ _ (assertInitial_get_isSome _ _),
      readSlot_writeSlotUpnl_self]
  | some q =>
    dsimp only
    rw [readSlot_writeSlotUpnl_other _ _ _ _ _ _ (by decide),
      readSlot_assertInitial, hp]
    dsimp only
    rw [assertInitial_of_isSome _ _ (writeSlotUpnl_get_isSome _ _ _ _ _),
      readSlot_writeSlotUpnl_self]

theorem foldl_pnl_fst (l : List SessionPosition) (a b : ℚ) :
    (l.foldl
        (fun acc position => (acc.1 + position.pos.valueUpnl, acc.2 + position.pos.marginValue))
        (a, b)).1
      = a + (l.map fun q => q.pos.valueUpnl).sum := by
  induction l generalizing a b with
  | nil => simp
  | cons hd tl ih => simp [ih, add_assoc]

end AccountStateStore

/-- C6: `processPriceEvent({symbol, price})` overwrites `valueUpnl` of each
existing LONG or SHORT position of that symbol with
`assetQty * (price - entryPrice)`, the same side-independent formula for
both sides. -/
theorem processPriceEvent_sets_upnl {MV : Type} (s : AccountStateStore MV)
    (symbol : String) (price : ℚ) (side : EnginePositionSide)
    (p : EngineSimplePosition)
    (hside : side = EnginePositionSide.LONG ∨ side = EnginePositionSide.SHORT)
    (hp : (s.getActivePosition symbol side).1 = some p) :
    ((s.processPriceEvent { symbol := symbol, price := price }).getActivePosition
        symbol side).1
      = some { p with valueUpnl := p.assetQty * (price - p.positionPrice) } := by
  rw [AccountStateStore.getActivePosition_fst] at hp ⊢
  rcases hside with h | h <;> subst h
  · exact AccountStateStore.processPriceEvent_readSlot_long s symbol price p hp
  · exact AccountStateStore.processPriceEvent_readSlot_short s symbol price p hp

/-- C6 witness: on the store holding a LONG (entry 100, qty 2) and a SHORT
(entry 100, qty -2) on "X", a price event at 110 sets `valueUpnl` to 20 and
-20 respectively. -/
theorem processPriceEvent_sets_upnl_witness :
    ((storeHedgedX.processPriceEvent { symbol := "X", price := 110 }).getActivePosition
        "X" EnginePositionSide.LONG).1
      = some { samplePosition "X" EnginePositionSide.LONG 2 100 0 0 with valueUpnl := 20 } ∧
    ((storeHedgedX.processPriceEvent { symbol := "X", price := 110 }).getActivePosition
        "X" EnginePositionSide.SHORT).1
      = some { samplePosition "X" EnginePositionSide.SHORT (-2) 100 0 0 with valueUpnl := -20 } := by
  constructor
  · have h := processPriceEvent_sets_upnl storeHedgedX "X" 110 EnginePositionSide.LONG
      (samplePosition "X" EnginePositionSide.LONG 2 100 0 0) (Or.inl rfl) (by decide)
    rw [h]
    simp [samplePosition]
    norm_num
  · have h := processPriceEvent_sets_upnl storeHedgedX "X" 110 EnginePositionSide.SHORT
      (samplePosition "X" EnginePositionSide.SHORT (-2) 100 0 0) (Or.inr rfl) (by decide)
    rw [h]
    simp [samplePosition]
    norm_num

/-- C4: after `upsertActiveOrder(o)`, `getOrder(o.exchangeOrderId)` returns
`o` exactly when `o.status` is NEW or PARTIALLY_FILLED, and returns absent
for every other status; in particular, upserting status FILLED for an id
previously stored as PARTIALLY_FILLED leaves `getOrders()` without it. -/
theorem upsertActiveOrder_retention {MV : Type} (s : AccountStateStore MV)
    (o : EngineOrder) :
    ((o.status = EngineOrderStatus.NEW ∨ o.status = EngineOrderStatus.PARTIALLY_FILLED) →
      (s.upsertActiveOrder o).getOrder o.exchangeOrderId = some o) ∧
    ((o.status ≠ EngineOrderStatus.NEW ∧ o.status ≠ EngineOrderStatus.PARTIALLY_FILLED) →
      (s.upsertActiveOrder o).getOrder o.exchangeOrderId = none) ∧
    (((initialStore Unit).upsertActiveOrder
        (sampleOrder "42" EngineOrderStatus.PARTIALLY_FILLED)).upsertActiveOrder
          (sampleOrder "42" EngineOrderStatus.FILLED)).getOrders = [] := by
  refine ⟨?_, ?_, by decide⟩
  · intro h
    unfold AccountStateStore.upsertActiveOrder AccountStateStore.getOrder
    rw [if_pos h]
    exact JSRecord.get_set_self _ _ _
  · intro h
    unfold AccountStateStore.upsertActiveOrder AccountStateStore.getOrder
      AccountStateStore.deleteOrder
    rw [if_neg (not_or.mpr h)]
    exact JSRecord.get_del_self _ _

/-- C4 witness: a NEW order is stored and retrievable; a FILLED order is
not retained. -/
theorem upsertActiveOrder_retention_witness :
    ((initialStore Unit).upsertActiveOrder (sampleOrder "7" EngineOrderStatus.NEW)).getOrder "7"
      = some (sampleOrder "7" EngineOrderStatus.NEW) ∧
    ((initialStore Unit).upsertActiveOrder (sampleOrder "7" EngineOrderStatus.FILLED)).getOrder "7"
      = none := by
  constructor
  · exact (upsertActiveOrder_retention (initialStore Unit)
      (sampleOrder "7" EngineOrderStatus.NEW)).1 (Or.inl rfl)
  · exact (upsertActiveOrder_retention (initialStore Unit)
      (sampleOrder "7" EngineOrderStatus.FILLED)).2.1 ⟨by decide, by decide⟩

/-- C7: for every starting balance, the session summary reports
`realisedPnl = walletBalance - startingBalance`, `unrealisedPnl` equal to
the sum of `valueUpnl` over `getAllPositions()`, and an
"if everything closed at market" balance of `startingBalance` plus that
sum. -/
theorem getSessionSummary_pnl {MV : Type} (s : AccountStateStore MV)
    (startingBalance : ℚ) :
    (s.getSessionSummary startingBalance).1.pnlState.realisedPnl
        = s.getWalletBalance - startingBalance ∧
    (s.getSessionSummary startingBalance).1.pnlState.unrealisedPnl
        = (s.getAllPositions.map EngineSimplePosition.valueUpnl).sum ∧
    (s.getSessionSummary startingBalance).1.quoteBalanceState.nowIfEverythingClosedAtMarket
        = startingBalance + (s.getAllPositions.map EngineSimplePosition.valueUpnl).sum := by
  unfold AccountStateStore.getSessionSummary
  refine ⟨rfl, ?_, ?_⟩ <;>
  · dsimp only
    rw [AccountStateStore.foldl_pnl_fst]
    simp [List.map_map, Function.comp_def]

namespace AccountStateStore

theorem isPendingPersist_processPriceEvent {MV : Type} (s : AccountStateStore MV)
    (e : IncomingPriceEvent) :
    (s.processPriceEvent e).isPendingPersist = s.isPendingPersist := by
  unfold processPriceEvent
  dsimp only
  split <;> split <;>
    simp [getActivePosition_snd, isPendingPersist_assertInitial,
      isPendingPersist_writeSlotUpnl]

end AccountStateStore

/-- C10: no balance, leverage, position, order, price-event, summary or
query operation changes the pending-persist flag; only the metadata family
(`setSymbolMetadata`, `setSymbolMetadataValue`, `deletePositionMetadata`)
and `setIsPendingPersist` touch it. -/
theorem non_metadata_ops_preserve_pending_persist {MV : Type}
    (s : AccountStateStore MV) (bal lev price sb : ℚ) (symbol orderId : String)
    (side : EnginePositionSide) (oside : EngineOrderSide)
    (p : EngineSimplePosition) (o : EngineOrder) :
    (s.setWalletBalance bal).isPendingPersist = s.isPendingPersist ∧
    s.storePreviousBalance.isPendingPersist = s.isPendingPersist ∧
    (s.setSymbolLeverage symbol lev).isPendingPersist = s.isPendingPersist ∧
    (s.setSymbolSideLeverage symbol oside lev).isPendingPersist = s.isPendingPersist ∧
    (s.setActivePosition symbol side p).isPendingPersist = s.isPendingPersist ∧
    (s.deleteActivePosition symbol side).isPendingPersist = s.isPendingPersist ∧
    (s.upsertActiveOrder o).isPendingPersist = s.isPendingPersist ∧
    (s.deleteOrder orderId).isPendingPersist = s.isPendingPersist ∧
    s.clearAllOrders.isPendingPersist = s.isPendingPersist ∧
    (s.processPriceEvent { symbol := symbol, price := price }).isPendingPersist
        = s.isPendingPersist ∧
    (s.getSessionSummary sb).2.isPendingPersist = s.isPendingPersist ∧
    (s.getActivePosition symbol side).2.isPendingPersist = s.isPendingPersist ∧
    (s.isSymbolSideInPosition symbol side).2.isPendingPersist = s.isPendingPersist ∧
    (s.isSymbolInAnyPosition symbol).2.isPendingPersist = s.isPendingPersist ∧
    s.getTotalActivePositions.2.isPendingPersist = s.isPendingPersist := by
  refine ⟨rfl, rfl, rfl, ?_, ?_, ?_, ?_, rfl, rfl,
    AccountStateStore.isPendingPersist_processPriceEvent s _, rfl, ?_, ?_, ?_, rfl⟩
  · unfold AccountStateStore.setSymbolSideLeverage
    cases s.accountLeverageState.get symbol <;> rfl
  · unfold AccountStateStore.setActivePosition
    simpa [AccountStateStore.isPendingPersist] using
      AccountStateStore.isPendingPersist_assertInitial s symbol
  · unfold AccountStateStore.deleteActivePosition
    simpa [AccountStateStore.isPendingPersist] using
      AccountStateStore.isPendingPersist_assertInitial s symbol
  · unfold AccountStateStore.upsertActiveOrder
    split <;> rfl
  · rw [AccountStateStore.getActivePosition_snd]
    exact AccountStateStore.isPendingPersist_assertInitial s symbol
  · unfold AccountStateStore.isSymbolSideInPosition
    rw [AccountStateStore.getActivePosition_snd]
    exact AccountStateStore.isPendingPersist_assertInitial s symbol
  · unfold AccountStateStore.isSymbolInAnyPosition
    dsimp only
    split
    · unfold AccountStateStore.isSymbolSideInPosition
      rw [AccountStateStore.getActivePosition_snd]
      exact AccountStateStore.isPendingPersist_assertInitial s symbol
    · unfold AccountStateStore.isSymbolSideInPosition
      rw [AccountStateStore.getActivePosition_snd, AccountStateStore.getActivePosition_snd]
      rw [AccountStateStore.isPendingPersist_assertInitial,
        AccountStateStore.isPendingPersist_assertInitial]

/-- C3 counterexample: a depth calculation with available balance 0 does not
fail — it returns a report whose percentage fields hold `Infinity`, for the
single-position calculation and for the aggregate summary alike. -/
theorem depth_zero_balance_returns_infinity :
    (calculateDepthForPosition "USDT" "X" (JSNum.fin 0) (JSNum.fin 2) (JSNum.fin 100)
        (JSNum.fin 5) (JSNum.fin 5) (JSNum.fin 1)).positionDepth = JSNum.inf true ∧
    (calulateDepthSummaryForAllPositions (JSNum.fin 0) []
        (some [samplePosition "X" EnginePositionSide.LONG 2 100 5 0]) "USDT"
        "cross").depthWithoutPnL = JSNum.inf true := by
  constructor
  · norm_num [calculateDepthForPosition, JSNum.mul, JSNum.div, JSNum.abs, JSNum.jsOr,
      JSNum.truthy, toFixedNumber]
  · norm_num [calulateDepthSummaryForAllPositions, calculateDepthForPositions,
      calculateDepthForPosition, getUnrealisedPnl, samplePosition, JSRecord.get,
      JSNum.mul, JSNum.div, JSNum.add, JSNum.abs, JSNum.jsOr, JSNum.truthy, toFixedNumber]

/-- C3 (amended): with available balance 0, `calculateDepthForPosition` does
not raise any error: it returns a report whose `positionDepth` percentage is
never finite — it is `NaN` or a signed `Infinity`, whatever the other
arguments are. -/
theorem calculateDepthForPosition_zero_balance_nonfinite (asset symbol : String)
    (positionAmount entryPrice unrealisedPnl totalNetUnrealisedPnl leverage : JSNum) :
    (calculateDepthForPosition asset symbol (JSNum.fin 0) positionAmount entryPrice
        unrealisedPnl totalNetUnrealisedPnl leverage).positionDepth = JSNum.nan ∨
    (∃ b, (calculateDepthForPosition asset symbol (JSNum.fin 0) positionAmount entryPrice
        unrealisedPnl totalNetUnrealisedPnl leverage).positionDepth = JSNum.inf b) := by
  unfold calculateDepthForPosition
  dsimp only
  cases h : ((positionAmount.mul entryPrice).abs.div (leverage.jsOr (JSNum.fin 1))).abs with
  | nan => left; rfl
  | inf b =>
    right
    cases b
    · exact ⟨false, by norm_num [JSNum.div, JSNum.mul, toFixedNumber]⟩
    · exact ⟨true, by norm_num [JSNum.div, JSNum.mul, toFixedNumber]⟩
  | fin q =>
    by_cases hq : q = 0
    · left
      subst hq
      norm_num [JSNum.div, JSNum.mul, toFixedNumber]
    · right
      by_cases h2 : 0 < q
      · exact ⟨true, by norm_num [JSNum.div, JSNum.mul, toFixedNumber, hq, h2]⟩
      · exact ⟨false, by norm_num [JSNum.div, JSNum.mul, toFixedNumber, hq, h2]⟩
